import Mathlib

/-!
Verification development for the entigorm repository: a shallow embedding of
the Clause/predicate builder, the join-condition resolver, the deferred
scope list and the transactional write path, together with theorems settling
the frozen claims about them.

Embedding conventions:
* Go `error` values are modelled by the inductive `GoErr` (see below); `nil`
  errors are `Option.none`.
* Calls into the external gorm driver (`Updates`, `Rollback`, `Commit`, ...)
  are modelled as oracle parameters holding the error the driver would
  return, plus booleans recording whether the call was made.
* Go panics are modelled by `Option.none` results: the panicking branch of a
  function is the `none` branch of its total embedding.
-/

namespace Entigorm

/-- Go `error` values as they occur in this code base.
`basic` is an `errors.New`/plain error (it has no `Unwrap() error` method);
`wrap` is a `fmt.Errorf("...%w...")`-style error (its `Unwrap() error`
returns the inner error); `join1`/`join2` are the results of `errors.Join`
with one resp. two non-nil operands (the only arities this code produces).
Note that an `errors.Join` result exposes `Unwrap() []error`, NOT
`Unwrap() error`, so `errors.Unwrap` returns nil on it. -/
inductive GoErr where
  | basic (msg : String)
  | wrap (msg : String) (inner : GoErr)
  | join1 (a : GoErr)
  | join2 (a b : GoErr)
deriving DecidableEq, Repr

/-- `errors.Unwrap err`: non-nil only for errors that implement
`Unwrap() error`, i.e. the `wrap` constructor. `errors.Join` results
implement `Unwrap() []error` instead, which `errors.Unwrap` ignores. -/
def GoErr.unwrapErr : GoErr → Option GoErr
  | .wrap _ inner => some inner
  | _ => none

/-- `errors.Is`-style reachability: does the error tree of `e` contain
`t`?  Traverses both `Unwrap() error` and the operand lists of
`errors.Join`, exactly like `errors.Is` does. -/
def GoErr.containsErr : GoErr → GoErr → Bool
  | e, t =>
    (e = t) ||
      match e with
      | .basic _ => false
      | .wrap _ inner => inner.containsErr t
      | .join1 a => a.containsErr t
      | .join2 a b => a.containsErr t || b.containsErr t

/-- `containsErr` lifted to a possibly-nil error. -/
def containsOpt (o : Option GoErr) (t : GoErr) : Bool :=
  match o with
  | some e => e.containsErr t
  | none => false

/-- `errors.Join(a, b)` on possibly-nil operands: nil operands are dropped,
all-nil gives nil. -/
def errorsJoin (a b : Option GoErr) : Option GoErr :=
  match a, b with
  | none, none => none
  | some x, none => some (.join1 x)
  | none, some y => some (.join1 y)
  | some x, some y => some (.join2 x y)

/-- The transaction-relevant fields of the retained builder variant
(`type transaction struct` in entity.go: `tx *gorm.DB`, `commit bool`,
`savePoint string`; the deferred `scopes` play no role in the error path
and are modelled separately). `txActive` is `tx != nil`. -/
structure TxState where
  txActive : Bool
  commitFlag : Bool
  savePoint : String
deriving DecidableEq, Repr

/-- The builder-held mutable error field `Entity.error` together with the
transaction state: everything `joinError`/`rollback`/`commit` touch. -/
structure WState where
  tx : TxState
  err : Option GoErr
deriving DecidableEq, Repr

/-- `func (e *Entity[E]) joinError(err error) error` (entity.go):
if `errors.Unwrap(e.error) != nil` return `errors.Join(e.error, err)`
(builder field untouched), else set `e.error = err` and return it. -/
def joinError (s : WState) (e : Option GoErr) : WState × Option GoErr :=
  match s.err with
  | some cur =>
      if cur.unwrapErr.isSome then (s, errorsJoin (some cur) e)
      else ({ s with err := e }, e)
  | none => ({ s with err := e }, e)

/-- `func (e *Entity[E]) rollback(err error) (Transaction, error)`
(entity.go, retained variant).  `rbErr` is the oracle for the driver's
`RollbackTo`/`Rollback` error.  Returns the new state, whether a non-nil
Transaction was returned, and the error result. -/
def rollbackW (s : WState) (rbErr : Option GoErr) (cause : GoErr) :
    WState × Bool × Option GoErr :=
  if s.tx.savePoint.length > 0 then
    -- rErr := e.transaction.tx.RollbackTo(savePoint).Error
    -- if rErr != nil { e.error = rErr } ; return nil, e.joinError(err)
    let s1 := match rbErr with
      | some r => { s with err := some r }
      | none => s
    let p := joinError s1 (some cause)
    (p.1, false, p.2)
  else
    -- rErr := e.transaction.tx.Rollback().Error
    match rbErr with
    | some r =>
        -- e.error = rErr ; return nil, e.joinError(err)
        let s1 := { s with err := some r }
        let p := joinError s1 (some cause)
        (p.1, false, p.2)
    | none => (s, true, none)

/-- Result of one transactional write (`Update`/`Insert`/`InsertBatch`/
`Delete`): final state, the returned error, and whether the driver's
rollback resp. commit calls were made. -/
structure WriteOutcome where
  state : WState
  ret : Option GoErr
  rolledBack : Bool
  committed : Bool
deriving DecidableEq, Repr

/-- `func (e *Entity[E]) Update(ctx context.Context) error`
(entity.go, retained variant).  `writeErr` is the oracle for
`tx.WithContext(ctx).Scopes(...).Updates(e.table).Error`, `rbErr` for the
rollback call inside `e.rollback`, `cErr` for `tx.Commit().Error` inside
`e.commit`.  `Insert`, `InsertBatch` and `Delete` share this control flow
line for line (only the underlying driver call differs, which is an oracle
here). -/
def updateW (s : WState) (writeErr rbErr cErr : Option GoErr) : WriteOutcome :=
  if s.tx.txActive = false then
    -- if e.transaction.tx == nil { return db.WithContext(ctx)...Error }
    { state := s, ret := writeErr, rolledBack := false, committed := false }
  else
    match writeErr with
    | some e1 =>
        -- _, rerr := e.rollback(err)
        let r := rollbackW s rbErr e1
        match r.2.2 with
        | some rerr =>
            -- if rerr != nil { return e.joinError(rerr) }
            let p := joinError r.1 (some rerr)
            { state := p.1, ret := p.2, rolledBack := true, committed := false }
        | none =>
            -- return e.joinError(err)
            let p := joinError r.1 (some e1)
            { state := p.1, ret := p.2, rolledBack := true, committed := false }
    | none =>
        if s.tx.commitFlag then
          -- _, err := e.commit(); e.commit sees the flag set and runs
          -- e.transaction.tx.Commit()
          match cErr with
          | some c =>
              let p := joinError s (some c)
              { state := p.1, ret := p.2, rolledBack := false, committed := true }
          | none =>
              { state := s, ret := none, rolledBack := false, committed := true }
        else
          { state := s, ret := none, rolledBack := false, committed := false }

/-! ### Legacy builder variant (first half of entity.go): `SetTx` guard

`SQL[E](ent)` constructs the builder with
`transaction: &transaction{db: db.Begin()}`; gorm's `Begin` always returns a
non-nil `*gorm.DB` handle (errors are carried inside the handle), so the
`db` field is non-nil from construction on.  Every shaping method reassigns
`e.transaction.db = e.transaction.db.Method(...)`, again a non-nil handle.
`SetTx` panics iff `e.transaction.db != nil`. -/

/-- The legacy `transaction` struct: `db *gorm.DB` modelled by its
presence bit, plus `savePoint` and `orderBy`. -/
structure LegacyTx where
  dbPresent : Bool
  savePoint : String
  orderBy : String
deriving DecidableEq, Repr

/-- The legacy `Entity` builder state (the fields `SetTx` and the shaping
methods touch). -/
structure LegacyEntity where
  transaction : LegacyTx
deriving DecidableEq, Repr

/-- `func SQL[E entity](ent E) Entitier[E]` (legacy variant):
`&Entity[E]{entity: ent, transaction: &transaction{db: db.Begin()}}` —
the handle is present from the start. -/
def legacySQL : LegacyEntity :=
  { transaction := { dbPresent := true, savePoint := "", orderBy := "" } }

/-- One shaping call of the legacy variant (`Where`, `Select`, `OrderBy`,
`Offset`, `Limit`, `GroupBy`, `Having`, `Join`), carrying the parameter
that matters for the builder state. -/
inductive LShape where
  | lwhere
  | lselect (cols : List String)
  | lorder (name : String)
  | loffset (n : Int)
  | llimit (n : Int)
  | lgroup (name : String)
  | lhaving
  | ljoin (sql : String)
deriving DecidableEq, Repr

/-- Effect of a legacy shaping call on the builder: each reassigns
`e.transaction.db` to the (non-nil) result of a gorm call, so the presence
bit is preserved; `OrderBy` additionally records the order column. -/
def lApply (e : LegacyEntity) (c : LShape) : LegacyEntity :=
  match c with
  | .lorder name =>
      { e with transaction := { e.transaction with orderBy := name } }
  | _ => e

/-- `func (e *Entity[E]) SetTx(db Transaction) Entitier[E]` (entity.go,
legacy variant): `if e.transaction.db != nil { panic("must call SetTx
before every method") }`; otherwise install the injected handle.  The
panic is the `none` branch. -/
def legacySetTx (e : LegacyEntity) : Option LegacyEntity :=
  if e.transaction.dbPresent then none
  else some { e with transaction := { e.transaction with dbPresent := true } }

/-- Running a sequence of legacy shaping calls from a fresh builder. -/
def legacyRun (ops : List LShape) : LegacyEntity :=
  ops.foldl lApply legacySQL

lemma lApply_dbPresent (e : LegacyEntity) (c : LShape) :
    (lApply e c).transaction.dbPresent = e.transaction.dbPresent := by
  cases c <;> rfl

lemma legacyRun_dbPresent (ops : List LShape) :
    (legacyRun ops).transaction.dbPresent = true := by
  suffices h : ∀ e : LegacyEntity, ∀ l : List LShape,
      (l.foldl lApply e).transaction.dbPresent = e.transaction.dbPresent by
    exact h legacySQL ops
  intro e l
  induction l generalizing e with
  | nil => rfl
  | cons c cs ih => simpa [List.foldl, lApply_dbPresent] using ih (lApply e c)

/-! ### Join-condition resolver (`Join` in the retained variant)

The rewrite in `Entity.Join`: split the raw condition on `" = "`, split
each piece on `" "` keeping non-empty words, then for every token equal to
`"?"` rewrite the immediately preceding token `t` to `table ++ "." ++ t ++
" ="`, and re-join all tokens with single spaces.  (The Go loop writes
index `i-1` while scanning index `i`, and a position is only ever read at
its own iteration, before it can be overwritten, so the rewrite of each
token depends only on the original next token.) -/

/-- Is `sep` an initial segment of `cs`? (helper for `goSplitAux`). -/
def leadsWith : List Char → List Char → Bool
  | [], _ => true
  | _ :: _, [] => false
  | a :: as, b :: bs => a == b && leadsWith as bs

/-- Worker for Go `strings.Split` on character lists: scan left to right,
cut at each (non-overlapping) occurrence of the non-empty separator.
`fuel` only forces structural termination; every step consumes at least
one character, so `fuel = length + 1` never runs out. -/
def goSplitAux (sep : List Char) : Nat → List Char → List Char → List (List Char)
  | _, acc, [] => [acc.reverse]
  | 0, acc, rest => [acc.reverse ++ rest]
  | fuel + 1, acc, c :: cs =>
      if leadsWith sep (c :: cs) then
        acc.reverse :: goSplitAux sep fuel [] ((c :: cs).drop sep.length)
      else
        goSplitAux sep fuel (c :: acc) cs

/-- Go `strings.Split(s, sep)` for non-empty `sep`: the list of substrings
between consecutive non-overlapping occurrences of `sep`. -/
def goSplit (s sep : String) : List String :=
  (goSplitAux sep.toList (s.toList.length + 1) [] s.toList).map
    fun l => String.mk l

/-- Go `strings.Join(elems, sep)`. -/
def goStringsJoin (elems : List String) (sep : String) : String :=
  match elems with
  | [] => ""
  | e :: rest => rest.foldl (fun acc x => acc ++ sep ++ x) e

/-- Tokenization in `Entity.Join`: `strings.Split(query, " = ")`, then each
piece split on `" "` dropping empty words, concatenated in order. -/
def splitTokens (query : String) : List String :=
  ((goSplit query " = ").map
    (fun s => (goSplit s " ").filter (fun w => w.length > 0))).flatten

/-- The qualification loop of `Entity.Join`: a token immediately followed
by `"?"` becomes `table ++ "." ++ token ++ " ="`; all other tokens are
unchanged.  (The Go loop mutates in place, but every read happens before
the only write to that position, so this positional description is exact.) -/
def qualifyTokens (table : String) : List String → List String
  | [] => []
  | t :: rest =>
      match rest with
      | [] => [t]
      | u :: _ =>
          (if u = "?" then table ++ "." ++ t ++ " =" else t)
            :: qualifyTokens table rest

/-- The full rewrite: tokenize, qualify, `strings.Join(tokens, " ")`. -/
def resolveJoinCondition (table query : String) : String :=
  goStringsJoin (qualifyTokens table (splitTokens query)) " "

/-- Number of placeholder markers in a string. -/
def countQ (s : String) : Nat := s.toList.count '?'

/-! ### Clause builder (`Clauser`, first half of the clause source file)

`Builer` entries are `{key, value, operator, nextBoolOP}`; a `Clauser` is
the entry list plus the pending-negation flag `not`.  Go `any` values are
modelled by `GoVal`: a scalar or (for `IN`) the bound value list. -/

/-- A bound value: a scalar, or the value list an `IN` predicate binds as
one argument. -/
inductive GoVal where
  | prim (s : String)
  | vlist (l : List String)
deriving DecidableEq, Repr

/-- `type Builer struct { key string; value any; operator string;
nextBoolOP string }`. -/
structure Builer where
  key : String
  value : GoVal
  operator : String
  nextBoolOP : String
deriving DecidableEq, Repr

/-- `type Clauser struct { builder []Builer; not bool }`. -/
structure Clauser where
  builder : List Builer
  not : Bool
deriving DecidableEq, Repr

def EQOperator : String := "="
def GTOperator : String := ">"
def GTEOperator : String := ">="
def LTOperator : String := "<"
def LTEOperator : String := "<="
def INOperator : String := "IN"
def LikeOperator : String := "LIKE"
def BetWeen : String := "BETWEEN"
def NOTOperator : String := "NOT "
def OROperator : String := "OR "
def ANDOperator : String := "AND "

/-- `func makeWhereClause(operator, field string, value any) *Clauser`. -/
def makeWhereClause (operator field : String) (value : GoVal) : Clauser :=
  { builder := [{ key := field, value := value, operator := operator,
                  nextBoolOP := "" }],
    not := false }

/-- `func EQ(field string, value any) *Clauser`. -/
def EQ (field : String) (value : GoVal) : Clauser :=
  makeWhereClause EQOperator field value

/-- `func GTE(field string, value any) *Clauser`. -/
def GTE (field : String) (value : GoVal) : Clauser :=
  makeWhereClause GTEOperator field value

/-- `func GT(field string, value any) *Clauser`. -/
def GT (field : String) (value : GoVal) : Clauser :=
  makeWhereClause GTOperator field value

/-- `func LTE(field string, value any) *Clauser`. -/
def LTE (field : String) (value : GoVal) : Clauser :=
  makeWhereClause LTEOperator field value

/-- `func LT(field string, value any) *Clauser`. -/
def LT (field : String) (value : GoVal) : Clauser :=
  makeWhereClause LTOperator field value

/-- `func Between(field string, value any) *Clauser`. -/
def Between (field : String) (value : GoVal) : Clauser :=
  makeWhereClause BetWeen field value

/-- `func Like(field, value string) *Clauser`. -/
def Like (field value : String) : Clauser :=
  makeWhereClause LikeOperator field (GoVal.prim value)

/-- `func IN(field string, values ...any) *Clauser` — the whole variadic
list is stored as the single bound value. -/
def IN (field : String) (values : List String) : Clauser :=
  makeWhereClause INOperator field (GoVal.vlist values)

/-- `func NOT() *Clauser`. -/
def NOT : Clauser := { builder := [], not := true }

/-- `func (w *Clauser) EQ(field string, value any) *Clauser`: apply the
pending negation to the field, append the one entry `EQ(field, value)`
builds, clear the flag. -/
def Clauser.EQ (w : Clauser) (field : String) (value : GoVal) : Clauser :=
  let field := if w.not then NOTOperator ++ field else field
  { builder := w.builder ++ (Entigorm.EQ field value).builder, not := false }

/-- `func (w *Clauser) GT`. -/
def Clauser.GT (w : Clauser) (field : String) (value : GoVal) : Clauser :=
  let field := if w.not then NOTOperator ++ field else field
  { builder := w.builder ++ (Entigorm.GT field value).builder, not := false }

/-- `func (w *Clauser) GTE`. -/
def Clauser.GTE (w : Clauser) (field : String) (value : GoVal) : Clauser :=
  let field := if w.not then NOTOperator ++ field else field
  { builder := w.builder ++ (Entigorm.GTE field value).builder, not := false }

/-- `func (w *Clauser) LT`. -/
def Clauser.LT (w : Clauser) (field : String) (value : GoVal) : Clauser :=
  let field := if w.not then NOTOperator ++ field else field
  { builder := w.builder ++ (Entigorm.LT field value).builder, not := false }

/-- `func (w *Clauser) LTE`. -/
def Clauser.LTE (w : Clauser) (field : String) (value : GoVal) : Clauser :=
  let field := if w.not then NOTOperator ++ field else field
  { builder := w.builder ++ (Entigorm.LTE field value).builder, not := false }

/-- `func (w *Clauser) IN(field string, values []any) *Clauser`. -/
def Clauser.IN (w : Clauser) (field : String) (values : List String) : Clauser :=
  let field := if w.not then NOTOperator ++ field else field
  { builder := w.builder ++ (Entigorm.IN field values).builder, not := false }

/-- `func (w *Clauser) Like(field, value string) *Clauser`. -/
def Clauser.Like (w : Clauser) (field value : String) : Clauser :=
  let field := if w.not then NOTOperator ++ field else field
  { builder := w.builder ++ (Entigorm.Like field value).builder, not := false }

/-- `func (w *Clauser) Between(field string, value any) *Clauser`. -/
def Clauser.Between (w : Clauser) (field : String) (value : GoVal) : Clauser :=
  let field := if w.not then NOTOperator ++ field else field
  { builder := w.builder ++ (Entigorm.Between field value).builder, not := false }

/-- Update the last entry's trailing connective
(`w.builder[len(w.builder)-1].nextBoolOP = op`). -/
def setLastOp : List Builer → String → List Builer
  | [], _ => []
  | [b], op => [{ b with nextBoolOP := op }]
  | b :: rest, op => b :: setLastOp rest op

/-- `func (w *Clauser) AND() *Clauser`: indexes
`w.builder[len(w.builder)-1]`, which panics (out of range) on an empty
builder — the `none` branch of this total embedding. -/
def Clauser.AND (w : Clauser) : Option Clauser :=
  if w.builder.isEmpty then none
  else some { w with builder := setLastOp w.builder ANDOperator }

/-- `func (w *Clauser) OR() *Clauser`: same out-of-range behaviour on an
empty builder. -/
def Clauser.OR (w : Clauser) : Option Clauser :=
  if w.builder.isEmpty then none
  else some { w with builder := setLastOp w.builder OROperator }

/-- `func (w *Clauser) NOT() *Clauser`. -/
def Clauser.NOT (w : Clauser) : Clauser := { w with not := true }

/-- `func (w *Clauser) ToSQL() (string, []any)`: `args[i] = builder[i].value`;
the fragment accumulates, per entry, `"<key> <operator> ?"` plus
`" " + nextBoolOP` when a connective is attached. -/
def Clauser.ToSQL (w : Clauser) : String × List GoVal :=
  let args := w.builder.map fun c => c.value
  let whereS := w.builder.foldl
    (fun acc c =>
      acc ++ c.key ++ " " ++ c.operator ++ " ?" ++
        (if c.nextBoolOP.length > 0 then " " ++ c.nextBoolOP else ""))
    ""
  (whereS, args)

/-- The fragment text one entry contributes to `ToSQL`. -/
def segString (c : Builer) : String :=
  c.key ++ " " ++ c.operator ++ " ?" ++
    (if c.nextBoolOP.length > 0 then " " ++ c.nextBoolOP else "")

/-- In-order concatenation of entry fragments. -/
def concatSegs : List Builer → String
  | [] => ""
  | b :: bs => segString b ++ concatSegs bs

/-- One comparison call of the Clause builder surface. -/
inductive CCall where
  | ceq (f : String) (v : GoVal)
  | cgt (f : String) (v : GoVal)
  | cgte (f : String) (v : GoVal)
  | clt (f : String) (v : GoVal)
  | clte (f : String) (v : GoVal)
  | clike (f : String) (v : String)
  | cbetween (f : String) (v : GoVal)
  | cin (f : String) (vs : List String)
deriving DecidableEq, Repr

/-- The column name a comparison call passes. -/
def CCall.fieldOf : CCall → String
  | .ceq f _ => f
  | .cgt f _ => f
  | .cgte f _ => f
  | .clt f _ => f
  | .clte f _ => f
  | .clike f _ => f
  | .cbetween f _ => f
  | .cin f _ => f

/-- The single bound value a comparison call contributes. -/
def CCall.valueOf : CCall → GoVal
  | .ceq _ v => v
  | .cgt _ v => v
  | .cgte _ v => v
  | .clt _ v => v
  | .clte _ v => v
  | .clike _ v => .prim v
  | .cbetween _ v => v
  | .cin _ vs => .vlist vs

/-- The operator a comparison call uses. -/
def CCall.opOf : CCall → String
  | .ceq _ _ => EQOperator
  | .cgt _ _ => GTOperator
  | .cgte _ _ => GTEOperator
  | .clt _ _ => LTOperator
  | .clte _ _ => LTEOperator
  | .clike _ _ => LikeOperator
  | .cbetween _ _ => BetWeen
  | .cin _ _ => INOperator

/-- Dispatch a comparison call to the corresponding `Clauser` method. -/
def applyCall (w : Clauser) (c : CCall) : Clauser :=
  match c with
  | .ceq f v => w.EQ f v
  | .cgt f v => w.GT f v
  | .cgte f v => w.GTE f v
  | .clt f v => w.LT f v
  | .clte f v => w.LTE f v
  | .clike f v => w.Like f v
  | .cbetween f v => w.Between f v
  | .cin f vs => w.IN f vs

/-- A chained sequence of comparison calls. -/
def runCalls (w : Clauser) (cs : List CCall) : Clauser :=
  cs.foldl applyCall w

/-- The entry a comparison call appends when no negation is pending. -/
def plainEntry (c : CCall) : Builer :=
  { key := c.fieldOf, value := c.valueOf, operator := c.opOf, nextBoolOP := "" }

/-- The builder the C4 theorem speaks about: a fresh Clause mutated by a
sequence of comparison calls. -/
def builtClauser (cs : List CCall) : Clauser :=
  runCalls { builder := [], not := false } cs

lemma applyCall_eq (w : Clauser) (c : CCall) :
    applyCall w c =
      { builder := w.builder ++
          [{ key := if w.not then NOTOperator ++ c.fieldOf else c.fieldOf,
             value := c.valueOf, operator := c.opOf, nextBoolOP := "" }],
        not := false } := by
  cases c <;>
    simp [applyCall, Clauser.EQ, Clauser.GT, Clauser.GTE, Clauser.LT,
      Clauser.LTE, Clauser.Like, Clauser.Between, Clauser.IN,
      Entigorm.EQ, Entigorm.GT, Entigorm.GTE, Entigorm.LT, Entigorm.LTE,
      Entigorm.Like, Entigorm.Between, Entigorm.IN, makeWhereClause,
      CCall.fieldOf, CCall.valueOf, CCall.opOf]

lemma runCalls_spec (cs : List CCall) :
    ∀ w : Clauser, w.not = false →
      (runCalls w cs).builder = w.builder ++ cs.map plainEntry ∧
      (runCalls w cs).not = false := by
  induction cs with
  | nil => intro w h; simp [runCalls, h]
  | cons c cs ih =>
    intro w h
    have ha := applyCall_eq w c
    rw [h, if_neg (by simp)] at ha
    have hstep := ih (applyCall w c) (by rw [ha])
    constructor
    · have : (runCalls w (c :: cs)).builder = (applyCall w c).builder ++ cs.map plainEntry := by
        simpa [runCalls] using hstep.1
      rw [this, ha]
      simp [plainEntry]
    · simpa [runCalls] using hstep.2

lemma toSQL_foldl (bs : List Builer) :
    ∀ acc : String,
      bs.foldl
        (fun acc c =>
          acc ++ c.key ++ " " ++ c.operator ++ " ?" ++
            (if c.nextBoolOP.length > 0 then " " ++ c.nextBoolOP else ""))
        acc = acc ++ concatSegs bs := by
  induction bs with
  | nil => intro acc; simp [concatSegs]
  | cons b bs ih =>
    intro acc
    rw [List.foldl_cons, ih]
    simp only [concatSegs, segString, String.append_assoc]

lemma toSQL_fst (w : Clauser) : w.ToSQL.1 = concatSegs w.builder := by
  have := toSQL_foldl w.builder ""
  simpa [Clauser.ToSQL] using this

lemma toSQL_snd (w : Clauser) : w.ToSQL.2 = w.builder.map fun c => c.value := rfl

lemma countQ_append (a b : String) : countQ (a ++ b) = countQ a + countQ b := by
  simp [countQ, String.toList, String.data_append, List.count_append]

lemma countQ_opOf (c : CCall) : countQ c.opOf = 0 := by
  cases c <;> rfl

lemma countQ_seg_plain (c : CCall) (h : countQ c.fieldOf = 0) :
    countQ (segString (plainEntry c)) = 1 := by
  have h1 : countQ " " = 0 := by decide
  have h2 : countQ " ?" = 1 := by decide
  simp [segString, plainEntry, countQ_append, h, h1, h2, countQ_opOf]

lemma countQ_concatSegs (bs : List Builer)
    (h : ∀ b ∈ bs, countQ (segString b) = 1) :
    countQ (concatSegs bs) = bs.length := by
  induction bs with
  | nil => decide
  | cons b bs ih =>
    have hb := h b (by simp)
    have hrest : ∀ x ∈ bs, countQ (segString x) = 1 := fun x hx => h x (by simp [hx])
    simp [concatSegs, countQ_append, hb, ih hrest, Nat.add_comm]

lemma concatSegs_append (xs ys : List Builer) :
    concatSegs (xs ++ ys) = concatSegs xs ++ concatSegs ys := by
  induction xs with
  | nil => simp [concatSegs]
  | cons x xs ih => simp [concatSegs, ih, String.append_assoc]

lemma setLastOp_append (bs : List Builer) (b : Builer) (op : String) :
    setLastOp (bs ++ [b]) op = bs ++ [{ b with nextBoolOP := op }] := by
  induction bs with
  | nil => rfl
  | cons x xs ih =>
    cases xs with
    | nil => rfl
    | cons y ys => simpa [setLastOp] using ih

/-- A small concrete call sequence (used by the C4 witness): an `EQ`, an
`IN` binding two values, and a `BETWEEN`. -/
def demoCalls : List CCall :=
  [.ceq "status" (.prim "open"), .cin "tags" ["a", "b"],
   .cbetween "amount" (.prim "range")]

lemma connective_frag (bs : List Builer) (b : Builer) (c : CCall) (op : String)
    (hop : 0 < op.length) :
    (applyCall { builder := setLastOp (bs ++ [b]) op, not := false } c).ToSQL.1 =
      concatSegs bs ++ (b.key ++ " " ++ b.operator ++ " ?") ++ (" " ++ op) ++
        (c.fieldOf ++ " " ++ c.opOf ++ " ?") := by
  rw [setLastOp_append,
    applyCall_eq { builder := bs ++ [{ b with nextBoolOP := op }], not := false } c,
    toSQL_fst]
  show concatSegs ((bs ++ [{ b with nextBoolOP := op }]) ++
      [{ key := if false then NOTOperator ++ c.fieldOf else c.fieldOf,
         value := c.valueOf, operator := c.opOf, nextBoolOP := "" }]) = _
  rw [concatSegs_append, concatSegs_append]
  simp only [concatSegs, segString, if_neg, if_pos hop]
  simp [String.append_assoc, String.append_empty]

/-! ### Deferred scope list (retained builder variant, second half of
entity.go)

Each shaping method appends one closure to `e.transaction.scopes`; the
closure is modelled by a `Scope` datum carrying exactly the parameters the
Go closure captures.  The `db` handle is only touched inside those
closures, which run at the terminal call (`db.Scopes(scopes...)`), never
when the shaping method itself executes. -/

/-- One deferred query-shaping operation, i.e. the data captured by the
closure the corresponding builder method appends. -/
inductive Scope where
  | selectS (cols : List String)
  | whereS (c : Clauser)
  | orderByS (name : String) (ascending : Bool)
  | offsetS (n : Int)
  | limitS (n : Int)
  | groupByS (name : String)
  | havingS (c : Clauser)
  | joinOnS (table : String) (stmt : String) (args : List GoVal)
  | preloadS (table : String)
deriving DecidableEq, Repr

/-- The retained `transaction` struct: `scopes []func(*gorm.DB) *gorm.DB`,
`tx *gorm.DB` (presence bit), `commit bool`, `savePoint string`. -/
structure RTransaction where
  scopes : List Scope
  txActive : Bool
  commitFlag : Bool
  savePoint : String
deriving DecidableEq, Repr

/-- The retained `Entity` builder: its transaction, the last attached
clause, and the has-many flag. -/
structure REntity where
  transaction : RTransaction
  clause : Clauser
  hasMany : Bool
deriving DecidableEq, Repr

/-- `func SQL[E entity](ent E) Entitier[E]` (retained variant): empty scope
list, no live transaction, empty clause. -/
def RSQL : REntity :=
  { transaction := { scopes := [], txActive := false, commitFlag := false,
                     savePoint := "" },
    clause := { builder := [], not := false },
    hasMany := false }

/-- One shaping call on the retained builder, carrying the call's
arguments.  A join is given by its resolved target table plus, optionally,
the raw condition string and its bound arguments (in the source these
travel as the `[]any{table, query, args...}` produced by `ToSQL`). -/
inductive ShapeCall where
  | sselect (cols : List String)
  | swhere (c : Clauser)
  | sorder (name : String) (ascending : Bool)
  | soffset (n : Int)
  | slimit (n : Int)
  | sgroup (name : String)
  | shaving (c : Clauser)
  | sjoin (table : String) (cond : Option (String × List GoVal))
deriving DecidableEq, Repr

/-- Append one scope to the builder's transaction (the
`e.transaction.scopes = append(e.transaction.scopes, func...)` pattern
shared by every shaping method). -/
def appendScope (e : REntity) (s : Scope) : REntity :=
  { e with transaction :=
      { e.transaction with scopes := e.transaction.scopes ++ [s] } }

/-- Effect of one shaping call, method by method:
`Select`/`OrderBy`/`Offset`/`Limit`/`GroupBy` append their closure;
`Where`/`Having` also store the clause in `e.clause`; `Join` with a
condition appends one join closure over the rewritten predicate, and
without one appends one preload closure.  No method touches the `tx`
handle, the commit flag or the savepoint, and none runs a driver call. -/
def shapeApply (e : REntity) (c : ShapeCall) : REntity :=
  match c with
  | .sselect cols => appendScope e (.selectS cols)
  | .swhere cl => appendScope { e with clause := cl } (.whereS cl)
  | .sorder name asc => appendScope e (.orderByS name asc)
  | .soffset n => appendScope e (.offsetS n)
  | .slimit n => appendScope e (.limitS n)
  | .sgroup name => appendScope e (.groupByS name)
  | .shaving cl => appendScope { e with clause := cl } (.havingS cl)
  | .sjoin table cond =>
      match cond with
      | some (query, args) =>
          appendScope e (.joinOnS table (resolveJoinCondition table query) args)
      | none => appendScope e (.preloadS table)

/-- The single scope a shaping call appends. -/
def scopeOf : ShapeCall → Scope
  | .sselect cols => .selectS cols
  | .swhere cl => .whereS cl
  | .sorder name asc => .orderByS name asc
  | .soffset n => .offsetS n
  | .slimit n => .limitS n
  | .sgroup name => .groupByS name
  | .shaving cl => .havingS cl
  | .sjoin table (some (query, args)) =>
      .joinOnS table (resolveJoinCondition table query) args
  | .sjoin table none => .preloadS table

/-- A fluent chain of shaping calls. -/
def runShapes (e : REntity) (cs : List ShapeCall) : REntity :=
  cs.foldl shapeApply e

lemma shapeApply_scopes (e : REntity) (c : ShapeCall) :
    (shapeApply e c).transaction.scopes =
      e.transaction.scopes ++ [scopeOf c] := by
  cases c with
  | sjoin table cond =>
      cases cond with
      | none => rfl
      | some p => cases p; rfl
  | _ => rfl

lemma shapeApply_tx (e : REntity) (c : ShapeCall) :
    (shapeApply e c).transaction.txActive = e.transaction.txActive ∧
    (shapeApply e c).transaction.commitFlag = e.transaction.commitFlag ∧
    (shapeApply e c).transaction.savePoint = e.transaction.savePoint := by
  cases c with
  | sjoin table cond =>
      cases cond with
      | none => exact ⟨rfl, rfl, rfl⟩
      | some p => cases p; exact ⟨rfl, rfl, rfl⟩
  | _ => exact ⟨rfl, rfl, rfl⟩

lemma runShapes_scopes (cs : List ShapeCall) :
    ∀ e : REntity,
      (runShapes e cs).transaction.scopes =
        e.transaction.scopes ++ cs.map scopeOf := by
  induction cs with
  | nil => intro e; simp [runShapes]
  | cons c cs ih =>
    intro e
    have h := ih (shapeApply e c)
    simp only [runShapes, List.foldl_cons] at h ⊢
    rw [h, shapeApply_scopes]
    simp

lemma qualifyTokens_length (table : String) :
    ∀ ts : List String, (qualifyTokens table ts).length = ts.length := by
  intro ts
  induction ts with
  | nil => rfl
  | cons t rest ih =>
    cases rest with
    | nil => rfl
    | cons u r => simpa [qualifyTokens] using ih

lemma qualifyTokens_getD (table : String) :
    ∀ (ts : List String) (i : Nat),
      (qualifyTokens table ts).getD i "" =
        if i + 1 < ts.length ∧ ts.getD (i + 1) "" = "?"
        then table ++ "." ++ ts.getD i "" ++ " ="
        else ts.getD i "" := by
  intro ts
  induction ts with
  | nil => intro i; simp [qualifyTokens]
  | cons t rest ih =>
    cases rest with
    | nil =>
      intro i
      cases i with
      | zero => simp [qualifyTokens]
      | succ k => simp [qualifyTokens]
    | cons u r =>
      intro i
      cases i with
      | zero =>
        by_cases hu : u = "?" <;>
          simp [qualifyTokens, hu, Nat.succ_lt_succ]
      | succ k =>
        have h := ih k
        simp only [qualifyTokens, List.getD_cons_succ, List.length_cons] at h ⊢
        rw [h]
        simp only [Nat.add_lt_add_iff_right]

end Entigorm

/-- C1: "For every transactional write (Update, Insert, Delete, InsertBatch)
executed with an active transaction and the explicit-commit flag set, if the
underlying write fails with error E1 and the subsequent rollback attempt
fails with error E2, the single error value returned exposes both E1 and
E2, and commit is never invoked on that code path."  The commit half holds,
but the exposure half fails on the code: with plain (`errors.New`-style)
errors E1 and E2, `Update` returns an error that is exactly E1 and does not
contain E2 — the rollback failure is swallowed, because `joinError` only
joins when `errors.Unwrap(e.error)` is non-nil, which is nil for a plain
error, so the stored rollback error is overwritten by the write error. -/
theorem c1_update_swallows_rollback_failure :
    (Entigorm.updateW ⟨⟨true, true, ""⟩, none⟩
        (some (.basic "E1")) (some (.basic "E2")) none).ret
      = some (Entigorm.GoErr.basic "E1") ∧
    Entigorm.containsOpt
        (Entigorm.updateW ⟨⟨true, true, ""⟩, none⟩
          (some (.basic "E1")) (some (.basic "E2")) none).ret
        (Entigorm.GoErr.basic "E2") = false ∧
    (Entigorm.updateW ⟨⟨true, true, ""⟩, none⟩
        (some (.basic "E1")) (some (.basic "E2")) none).committed = false := by
  refine ⟨rfl, by decide, rfl⟩

/-- C2: "SetTx after any shaping call fails immediately and loudly ... SetTx
is only valid as the first call on the builder."  What the code does: the
legacy `SetTx` hits its panic branch on every builder reachable from
`SQL` by any sequence of shaping calls — including the empty sequence,
because `SQL` itself runs `db.Begin()` and the guard only checks handle
presence.  So SetTx indeed fails loudly after shaping calls, but it
equally fails as the very first call, contradicting the claimed
first-call validity. -/
theorem c2_settx_always_hits_panic_branch (ops : List Entigorm.LShape) :
    Entigorm.legacySetTx (Entigorm.legacyRun ops) = none := by
  simp [Entigorm.legacySetTx, Entigorm.legacyRun_dbPresent]

/-- C5: "each shaping call (Select, Where, OrderBy, Offset, Limit,
GroupBy, Having, Join) appends exactly one deferred operation to the scope
list and returns the builder without touching a live connection, and at
the terminal call the accumulated scopes are applied in exactly the order
they were appended (FIFO)."  Proved: after any call sequence from `SQL`
the scope list is exactly the per-call scopes in call order; and each
single call appends exactly one scope at the tail while leaving the
transaction handle, commit flag and savepoint untouched (in the source the
`db` handle is only referenced inside the recorded closures, which the
terminal call applies in list order via `db.Scopes(scopes...)`). -/
theorem c5_scopes_append_one_fifo (cs : List Entigorm.ShapeCall) :
    (Entigorm.runShapes Entigorm.RSQL cs).transaction.scopes
      = cs.map Entigorm.scopeOf ∧
    (∀ (e : Entigorm.REntity) (c : Entigorm.ShapeCall),
      (Entigorm.shapeApply e c).transaction.scopes
          = e.transaction.scopes ++ [Entigorm.scopeOf c] ∧
      (Entigorm.shapeApply e c).transaction.txActive
          = e.transaction.txActive ∧
      (Entigorm.shapeApply e c).transaction.commitFlag
          = e.transaction.commitFlag ∧
      (Entigorm.shapeApply e c).transaction.savePoint
          = e.transaction.savePoint) := by
  refine ⟨?_, fun e c =>
    ⟨Entigorm.shapeApply_scopes e c, (Entigorm.shapeApply_tx e c).1,
      (Entigorm.shapeApply_tx e c).2.1, (Entigorm.shapeApply_tx e c).2.2⟩⟩
  simpa [Entigorm.RSQL] using Entigorm.runShapes_scopes cs Entigorm.RSQL

/-- C6: "For the input join condition `id = ? AND status = ?` with target
table `Orders`, the join resolver produces `Orders.id = ? AND
Orders.status = ?` (both left-hand columns qualified) and the count of
placeholder markers is unchanged by the rewrite."  Holds on the code. -/
theorem c6_join_rewrite_concrete :
    Entigorm.resolveJoinCondition "Orders" "id = ? AND status = ?"
      = "Orders.id = ? AND Orders.status = ?" ∧
    Entigorm.countQ (Entigorm.resolveJoinCondition "Orders" "id = ? AND status = ?")
      = Entigorm.countQ "id = ? AND status = ?" := by
  decide

/-- C3 counterexample: the claim says a token already containing a
table-qualifier dot is never re-qualified, but the resolver has no dot
check: the already-qualified column `Other.id` is rewritten to
`Orders.Other.id`, so it does NOT remain unchanged in the output. -/
theorem c3_requalifies_dotted_token :
    Entigorm.resolveJoinCondition "Orders" "Other.id = ?" = "Orders.Other.id = ?" ∧
    Entigorm.resolveJoinCondition "Orders" "Other.id = ?" ≠ "Other.id = ?" := by
  decide

/-- C3 (amended): the join resolver qualifies each column token that
immediately precedes a placeholder marker and handles any number of
equality clauses, but it re-qualifies unconditionally — a token that
already contains a dot is still prefixed with `"<table>."`.  Precisely:
the qualification pass preserves the token count, and the i-th output
token is `table ++ "." ++ t ++ " ="` whenever the (i+1)-th input token is
`"?"` (no matter what `t` contains), and is the unchanged input token
otherwise. -/
theorem c3_qualify_characterization (table : String) (ts : List String) :
    (Entigorm.qualifyTokens table ts).length = ts.length ∧
    ∀ i : Nat,
      (Entigorm.qualifyTokens table ts).getD i "" =
        if i + 1 < ts.length ∧ ts.getD (i + 1) "" = "?"
        then table ++ "." ++ ts.getD i "" ++ " ="
        else ts.getD i "" :=
  ⟨Entigorm.qualifyTokens_length table ts, Entigorm.qualifyTokens_getD table ts⟩

/-- C4: "For every sequence of comparison calls on a Clause (including
BETWEEN and IN, which each contribute exactly one placeholder regardless
of how many values they bind), rendering with ToSQL produces a fragment
whose number of placeholder markers equals the length of the returned
argument list, and the i-th placeholder corresponds positionally to the
i-th argument, in call order."  Proved for every call sequence whose
column names contain no placeholder character: the argument list is
exactly the call values in call order, the fragment is the in-order
concatenation of one segment per call, every segment (IN and BETWEEN
included) carries exactly one placeholder, and the total placeholder
count equals the argument count. -/
theorem c4_placeholders_match_args (cs : List Entigorm.CCall)
    (h : ∀ c ∈ cs, Entigorm.countQ c.fieldOf = 0) :
    (Entigorm.builtClauser cs).ToSQL.2 = cs.map Entigorm.CCall.valueOf ∧
    (Entigorm.builtClauser cs).ToSQL.1 =
      Entigorm.concatSegs (Entigorm.builtClauser cs).builder ∧
    (∀ b ∈ (Entigorm.builtClauser cs).builder,
      Entigorm.countQ (Entigorm.segString b) = 1) ∧
    Entigorm.countQ (Entigorm.builtClauser cs).ToSQL.1 =
      ((Entigorm.builtClauser cs).ToSQL.2).length := by
  obtain ⟨hb, -⟩ := Entigorm.runCalls_spec cs ⟨[], false⟩ rfl
  have hb' : (Entigorm.builtClauser cs).builder = cs.map Entigorm.plainEntry := by
    simpa [Entigorm.builtClauser] using hb
  have hseg : ∀ b ∈ (Entigorm.builtClauser cs).builder,
      Entigorm.countQ (Entigorm.segString b) = 1 := by
    intro b hbmem
    rw [hb'] at hbmem
    obtain ⟨c, hc, rfl⟩ := List.mem_map.mp hbmem
    exact Entigorm.countQ_seg_plain c (h c hc)
  refine ⟨?_, Entigorm.toSQL_fst _, hseg, ?_⟩
  · rw [Entigorm.toSQL_snd, hb', List.map_map]
    rfl
  · rw [Entigorm.toSQL_fst, Entigorm.countQ_concatSegs _ hseg, Entigorm.toSQL_snd]
    simp

/-- C4 witness: the property evaluated on the concrete sequence
`EQ("status","open")`, `IN("tags",["a","b"])`, `BETWEEN("amount",range)`. -/
theorem c4_placeholders_match_args_witness :
    (Entigorm.builtClauser Entigorm.demoCalls).ToSQL.2
      = Entigorm.demoCalls.map Entigorm.CCall.valueOf ∧
    (Entigorm.builtClauser Entigorm.demoCalls).ToSQL.1
      = Entigorm.concatSegs (Entigorm.builtClauser Entigorm.demoCalls).builder ∧
    (∀ b ∈ (Entigorm.builtClauser Entigorm.demoCalls).builder,
      Entigorm.countQ (Entigorm.segString b) = 1) ∧
    Entigorm.countQ (Entigorm.builtClauser Entigorm.demoCalls).ToSQL.1
      = ((Entigorm.builtClauser Entigorm.demoCalls).ToSQL.2).length :=
  c4_placeholders_match_args Entigorm.demoCalls (by decide)

/-- C7: "calling NOT sets a pending-negation flag that is consumed by
exactly the next comparison call (prefixing only that predicate's column
with the negation marker and then clearing the flag), appends no predicate
itself, and leaves every other predicate unchanged."  Proved for every
Clause state and every pair of subsequent comparison calls: `NOT` appends
nothing and only sets the flag; the next comparison appends exactly one
entry, with the negation marker on its column, clearing the flag; all
pre-existing entries are untouched and the comparison after that one is
not negated.  (Cross-instance isolation holds by construction: a
`Clauser` is a pure value, mirroring the source where distinct instances
never share predicate storage.) -/
theorem c7_not_negates_exactly_next (w : Entigorm.Clauser)
    (c d : Entigorm.CCall) :
    w.NOT.builder = w.builder ∧
    w.NOT.not = true ∧
    (Entigorm.applyCall w.NOT c).builder =
      w.builder ++
        [{ key := Entigorm.NOTOperator ++ c.fieldOf, value := c.valueOf,
           operator := c.opOf, nextBoolOP := "" }] ∧
    (Entigorm.applyCall w.NOT c).not = false ∧
    (Entigorm.applyCall (Entigorm.applyCall w.NOT c) d).builder =
      w.builder ++
        [{ key := Entigorm.NOTOperator ++ c.fieldOf, value := c.valueOf,
           operator := c.opOf, nextBoolOP := "" },
         Entigorm.plainEntry d] := by
  refine ⟨rfl, rfl, ?_, ?_, ?_⟩ <;>
    simp [Entigorm.applyCall_eq, Entigorm.Clauser.NOT, Entigorm.plainEntry]

/-- C8: "calling AND or OR attaches the connective to the most recently
appended predicate, and in the rendered fragment that connective appears
immediately after that predicate's `<column> <op> ?` segment and before
the next predicate's segment."  Proved for every non-empty Clause (last
entry `b`) and every next comparison call `c`: the connective lands on
`b`'s `nextBoolOP` slot only, and the rendered fragment is the earlier
segments, then `b`'s own segment, then the connective, then `c`'s
segment. -/
theorem c8_connective_position (w : Entigorm.Clauser)
    (bs : List Entigorm.Builer) (b : Entigorm.Builer) (c : Entigorm.CCall)
    (hb : w.builder = bs ++ [b]) (hn : w.not = false) :
    (∃ wa, w.AND = some wa ∧
      wa.builder = bs ++ [{ b with nextBoolOP := Entigorm.ANDOperator }] ∧
      (Entigorm.applyCall wa c).ToSQL.1 =
        Entigorm.concatSegs bs ++ (b.key ++ " " ++ b.operator ++ " ?") ++
          " AND " ++ (c.fieldOf ++ " " ++ c.opOf ++ " ?")) ∧
    (∃ wo, w.OR = some wo ∧
      wo.builder = bs ++ [{ b with nextBoolOP := Entigorm.OROperator }] ∧
      (Entigorm.applyCall wo c).ToSQL.1 =
        Entigorm.concatSegs bs ++ (b.key ++ " " ++ b.operator ++ " ?") ++
          " OR " ++ (c.fieldOf ++ " " ++ c.opOf ++ " ?")) := by
  obtain ⟨wb, wn⟩ := w
  simp only at hb hn
  subst hb hn
  have hne : (bs ++ [b]).isEmpty = false := by simp
  constructor
  · refine ⟨⟨Entigorm.setLastOp (bs ++ [b]) Entigorm.ANDOperator, false⟩, ?_, ?_, ?_⟩
    · simp [Entigorm.Clauser.AND, hne]
    · exact Entigorm.setLastOp_append bs b Entigorm.ANDOperator
    · exact Entigorm.connective_frag bs b c Entigorm.ANDOperator (by decide)
  · refine ⟨⟨Entigorm.setLastOp (bs ++ [b]) Entigorm.OROperator, false⟩, ?_, ?_, ?_⟩
    · simp [Entigorm.Clauser.OR, hne]
    · exact Entigorm.setLastOp_append bs b Entigorm.OROperator
    · exact Entigorm.connective_frag bs b c Entigorm.OROperator (by decide)

/-- C8 witness: the property evaluated on the one-predicate clause
`a = ?` followed by `EQ("b","2")`. -/
theorem c8_connective_position_witness :
    (∃ wa, (Entigorm.Clauser.mk [⟨"a", .prim "1", "=", ""⟩] false).AND = some wa ∧
      wa.builder = [⟨"a", .prim "1", "=", Entigorm.ANDOperator⟩] ∧
      (Entigorm.applyCall wa (.ceq "b" (.prim "2"))).ToSQL.1 = "a = ? AND b = ?") ∧
    (∃ wo, (Entigorm.Clauser.mk [⟨"a", .prim "1", "=", ""⟩] false).OR = some wo ∧
      wo.builder = [⟨"a", .prim "1", "=", Entigorm.OROperator⟩] ∧
      (Entigorm.applyCall wo (.ceq "b" (.prim "2"))).ToSQL.1 = "a = ? OR b = ?") :=
  c8_connective_position ⟨[⟨"a", .prim "1", "=", ""⟩], false⟩ []
    ⟨"a", .prim "1", "=", ""⟩ (.ceq "b" (.prim "2")) rfl rfl

/-- C9: "Calling AND or OR on a Clause that contains no predicates panics
(indexes the last-predicate slot of an empty sequence): in a total
embedding this call must hit the error branch for every empty-clause
input."  Proved: on every Clause with an empty builder both calls return
`none`, the embedding's panic branch. -/
theorem c9_empty_and_or_hits_error_branch (w : Entigorm.Clauser)
    (h : w.builder = []) :
    w.AND = none ∧ w.OR = none := by
  simp [Entigorm.Clauser.AND, Entigorm.Clauser.OR, h]

/-- C9 witness: the freshly created empty Clause hits the error branch on
both `AND` and `OR`. -/
theorem c9_empty_and_or_hits_error_branch_witness :
    (Entigorm.Clauser.mk [] false).AND = none ∧
    (Entigorm.Clauser.mk [] false).OR = none :=
  c9_empty_and_or_hits_error_branch ⟨[], false⟩ rfl

